import Mathlib

/-!
Verification of the in-memory todo application: a `TaskStorage` holding an
ordered task list and an identifier counter, five operation agents
(add, delete, update, list, toggle-complete) layered on top of it, and the
stand-alone `update_task` of the application's first phase.  Python methods
become pure functions; in-place mutation becomes explicit state passing.
-/

namespace TodoApp

/-- Model of Python's `str.strip()` on the underlying character list:
drop leading whitespace, then drop trailing whitespace. -/
def stripChars (l : List Char) : List Char :=
  ((l.dropWhile Char.isWhitespace).reverse.dropWhile Char.isWhitespace).reverse

/-- Model of Python's `str.strip()` on strings. -/
def pyStrip (s : String) : String :=
  String.mk (stripChars s.data)

/-- A task record: `Task.__init__` in `models.py` sets `id`, `title`,
`description` and `completed = False`. -/
structure Task where
  id : Int
  title : String
  description : String
  completed : Bool
deriving Repr, DecidableEq

/-- The state owned by `TaskStorage` in `storage.py`: the ordered task list
`_tasks` and the counter `_next_id`. -/
structure TaskStorage where
  tasks : List Task
  next_id : Int
deriving Repr, DecidableEq

/-- Source `TaskStorage.__init__`: empty list, counter 1. -/
def TaskStorage.empty : TaskStorage :=
  { tasks := [], next_id := 1 }

/-- Source `TaskStorage.add`: appends the task and returns it. -/
def TaskStorage.add (s : TaskStorage) (t : Task) : TaskStorage × Task :=
  ({ s with tasks := s.tasks ++ [t] }, t)

/-- The linear search of `TaskStorage.get`: first task whose id matches. -/
def findTask : List Task → Int → Option Task
  | [], _ => none
  | t :: ts, i => if t.id = i then some t else findTask ts i

/-- Source `TaskStorage.get`: linear lookup by id, `None` when absent. -/
def TaskStorage.get (s : TaskStorage) (task_id : Int) : Option Task :=
  findTask s.tasks task_id

/-- The loop of `TaskStorage.remove`: pop the first task with a matching id,
returning it and the remaining list, or `none` when no id matches. -/
def removeFirst : List Task → Int → Option (Task × List Task)
  | [], _ => none
  | t :: ts, i =>
    if t.id = i then some (t, ts)
    else
      match removeFirst ts i with
      | none => none
      | some (r, rest) => some (r, t :: rest)

/-- Source `TaskStorage.remove`: removes the first task with the given id; when no
task matches, the storage is untouched and `None` is reported. -/
def TaskStorage.remove (s : TaskStorage) (task_id : Int) :
    TaskStorage × Option Task :=
  match removeFirst s.tasks task_id with
  | none => (s, none)
  | some (r, rest) => ({ s with tasks := rest }, some r)

/-- Source `TaskStorage.get_all`: the task list in insertion order (the Python
method returns `self._tasks.copy()`; in this value-level model the copy is
the list itself). -/
def TaskStorage.get_all (s : TaskStorage) : List Task :=
  s.tasks

/-- Source `TaskStorage.get_next_id`: returns the current counter value and the
storage with the counter incremented. -/
def TaskStorage.get_next_id (s : TaskStorage) : Int × TaskStorage :=
  (s.next_id, { s with next_id := s.next_id + 1 })

/-- Source `TaskStorage.count`: number of stored tasks. -/
def TaskStorage.count (s : TaskStorage) : Nat :=
  s.tasks.length

/-- Source `TaskStorage.clear`: empties the list and resets the counter to 1. -/
def TaskStorage.clear (_ : TaskStorage) : TaskStorage :=
  { tasks := [], next_id := 1 }

/-- Replacing, in place, the first task with a matching id (the Python
agents fetch the task object via `get` and mutate it; here the mutated
object is written back at its position). -/
def setFirst : List Task → Int → Task → List Task
  | [], _, _ => []
  | t :: ts, i, t' => if t.id = i then t' :: ts else t :: setFirst ts i t'

/-- The uniform `(success, result_or_error)` convention of the agents:
`(True, task)` on success, `(False, message)` on failure. -/
inductive AgentResult where
  | ok (task : Task)
  | err (msg : String)
deriving Repr, DecidableEq

/-- True on the success branch of an agent result. -/
def AgentResult.isOk : AgentResult → Bool
  | .ok _ => true
  | .err _ => false

/-- Source `AddTaskAgent.validate_input`: blank title, overlong title, overlong
description, in that order; `none` means valid.  (The validation returns a
`(is_valid, error_message)` pair in Python; `some msg` models the invalid
branch.) -/
def AddTaskAgent.validate_input (title description : String) : Option String :=
  if title = "" ∨ pyStrip title = "" then some "Title cannot be empty"
  else if 100 < (pyStrip title).length then some "Title cannot exceed 100 characters"
  else if 500 < (pyStrip description).length then some "Description cannot exceed 500 characters"
  else none

/-- Source `AddTaskAgent.execute`: validate, draw the next id, build the task with
trimmed fields and `completed = False`, append it to storage. -/
def AddTaskAgent.execute (s : TaskStorage) (title description : String) :
    TaskStorage × AgentResult :=
  match AddTaskAgent.validate_input title description with
  | some msg => (s, .err msg)
  | none =>
    let idAndStore := TaskStorage.get_next_id s
    let task : Task :=
      { id := idAndStore.1, title := pyStrip title,
        description := pyStrip description, completed := false }
    ((TaskStorage.add idAndStore.2 task).1, .ok task)

/-- Source `DeleteTaskAgent.validate_input`: the id must be a positive integer. -/
def DeleteTaskAgent.validate_input (task_id : Int) : Option String :=
  if task_id < 1 then some "Task ID must be positive" else none

/-- Source `DeleteTaskAgent.execute`: validate, then remove; a missing id reports
not-found. -/
def DeleteTaskAgent.execute (s : TaskStorage) (task_id : Int) :
    TaskStorage × AgentResult :=
  match DeleteTaskAgent.validate_input task_id with
  | some msg => (s, .err msg)
  | none =>
    match TaskStorage.remove s task_id with
    | (s', none) => (s', .err ("Task with ID " ++ toString task_id ++ " not found"))
    | (s', some t) => (s', .ok t)

/-- Test of `new_title is not None and not new_title.strip()` in
`UpdateTaskAgent.validate_input`. -/
def givenBlank : Option String → Bool
  | none => false
  | some s => pyStrip s = ""

/-- Test of `new_title is not None and len(new_title.strip()) > 100`. -/
def givenOverTitle : Option String → Bool
  | none => false
  | some s => 100 < (pyStrip s).length

/-- Test of `new_description is not None and len(new_description.strip()) > 500`. -/
def givenOverDescr : Option String → Bool
  | none => false
  | some s => 500 < (pyStrip s).length

/-- Source `UpdateTaskAgent.validate_input`: positive id, at least one field,
non-blank title, length bounds, in the Python order. -/
def UpdateTaskAgent.validate_input (task_id : Int)
    (new_title new_description : Option String) : Option String :=
  if task_id < 1 then some "Task ID must be positive"
  else if new_title = none ∧ new_description = none then
    some "Please provide at least one field to update"
  else if givenBlank new_title then some "Title cannot be empty"
  else if givenOverTitle new_title then some "Title cannot exceed 100 characters"
  else if givenOverDescr new_description then some "Description cannot exceed 500 characters"
  else none

/-- The value a field takes in `UpdateTaskAgent.execute`: the trimmed new
value when one is provided, the old value otherwise. -/
def pickField (new : Option String) (old : String) : String :=
  match new with
  | some x => pyStrip x
  | none => old

/-- Field assignment in `UpdateTaskAgent.execute`: a provided field is
stored trimmed, an omitted field keeps its value. -/
def updateFields (t : Task) (new_title new_description : Option String) : Task :=
  { t with
    title := pickField new_title t.title,
    description := pickField new_description t.description }

/-- Source `UpdateTaskAgent.execute`: validate, fetch by id, assign the provided
fields on the fetched task (written back in place). -/
def UpdateTaskAgent.execute (s : TaskStorage) (task_id : Int)
    (new_title new_description : Option String) : TaskStorage × AgentResult :=
  match UpdateTaskAgent.validate_input task_id new_title new_description with
  | some msg => (s, .err msg)
  | none =>
    match TaskStorage.get s task_id with
    | none => (s, .err ("Task with ID " ++ toString task_id ++ " not found"))
    | some task =>
      let task' := updateFields task new_title new_description
      ({ s with tasks := setFirst s.tasks task_id task' }, .ok task')

/-- Source `MarkCompleteAgent.validate_input`: the id must be a positive integer. -/
def MarkCompleteAgent.validate_input (task_id : Int) : Option String :=
  if task_id < 1 then some "Task ID must be positive" else none

/-- Source `MarkCompleteAgent.execute`: validate, fetch by id, then set `completed`
to `mark_as` when given, otherwise flip it (written back in place). -/
def MarkCompleteAgent.execute (s : TaskStorage) (task_id : Int)
    (mark_as : Option Bool) : TaskStorage × AgentResult :=
  match MarkCompleteAgent.validate_input task_id with
  | some msg => (s, .err msg)
  | none =>
    match TaskStorage.get s task_id with
    | none => (s, .err ("Task with ID " ++ toString task_id ++ " not found"))
    | some task =>
      let task' : Task :=
        { task with completed := match mark_as with | some b => b | none => !task.completed }
      ({ s with tasks := setFirst s.tasks task_id task' }, .ok task')

/-- Source `ListTaskAgent.execute`: all tasks, filtered by the `completed` flag when
the filter is exactly `"complete"` or `"incomplete"`; always succeeds. -/
def ListTaskAgent.execute (s : TaskStorage) (filter_status : Option String) :
    Bool × List Task :=
  let tasks := TaskStorage.get_all s
  let tasks :=
    if filter_status = some "complete" then tasks.filter (fun t => t.completed)
    else if filter_status = some "incomplete" then tasks.filter (fun t => !t.completed)
    else tasks
  (true, tasks)

/-- The `{total, complete, incomplete}` summary record of
`ListTaskAgent.get_task_summary`. -/
structure TaskSummary where
  total : Nat
  complete : Nat
  incomplete : Nat
deriving Repr, DecidableEq

/-- Source `ListTaskAgent.get_task_summary`: counts over all stored tasks. -/
def ListTaskAgent.get_task_summary (s : TaskStorage) : TaskSummary :=
  let tasks := TaskStorage.get_all s
  { total := tasks.length,
    complete := tasks.countP (fun t => t.completed),
    incomplete := tasks.countP (fun t => !t.completed) }

/-- Field assignment in `main.py`'s `update_task`: a provided title is
stored trimmed only when non-blank after trimming, a provided description is
always stored trimmed. -/
def applyMainUpdate (t : Task) (new_title new_description : Option String) : Task :=
  let t1 :=
    match new_title with
    | some x => if pyStrip x = "" then t else { t with title := pyStrip x }
    | none => t
  match new_description with
  | some x => { t1 with description := pyStrip x }
  | none => t1

/-- The search-and-mutate loop of `main.py`'s `update_task`: the first task
with a matching id is updated in place and returned. -/
def updateLoop : List Task → Int → Option String → Option String →
    List Task × Option Task
  | [], _, _, _ => ([], none)
  | t :: rest, i, nt, nd =>
    if t.id = i then
      let t' := applyMainUpdate t nt nd
      (t' :: rest, some t')
    else
      let res := updateLoop rest i nt nd
      (t :: res.1, res.2)

/-- Source `main.py`'s `update_task` over the global task list: rejects a call with
both fields omitted, otherwise updates the first matching task. -/
def update_task (ts : List Task) (task_id : Int)
    (new_title new_description : Option String) : List Task × Option Task :=
  if new_title = none ∧ new_description = none then (ts, none)
  else updateLoop ts task_id new_title new_description

/-- One call against the store, for reasoning about operation sequences. -/
inductive Op where
  | addOp (title description : String)
  | deleteOp (task_id : Int)
  | updateOp (task_id : Int) (new_title new_description : Option String)
  | toggleOp (task_id : Int) (mark_as : Option Bool)
  | listOp (filter_status : Option String)

/-- Running one operation: the resulting storage, together with the id
assigned when the operation is a successful add. -/
def applyOpAssigned (s : TaskStorage) : Op → TaskStorage × Option Int
  | .addOp title description =>
    match AddTaskAgent.execute s title description with
    | (s', .ok task) => (s', some task.id)
    | (s', .err _) => (s', none)
  | .deleteOp i => ((DeleteTaskAgent.execute s i).1, none)
  | .updateOp i nt nd => ((UpdateTaskAgent.execute s i nt nd).1, none)
  | .toggleOp i mb => ((MarkCompleteAgent.execute s i mb).1, none)
  | .listOp _ => (s, none)

/-- The storage after one operation. -/
def applyOp (s : TaskStorage) (op : Op) : TaskStorage :=
  (applyOpAssigned s op).1

/-- The ids assigned by the successful adds of an operation sequence, in
order. -/
def traceAssigned : TaskStorage → List Op → List Int
  | _, [] => []
  | s, op :: rest =>
    match applyOpAssigned s op with
    | (s', some i) => i :: traceAssigned s' rest
    | (s', none) => traceAssigned s' rest

/-- Storage states reachable from a fresh store through the five agents. -/
inductive Reachable : TaskStorage → Prop where
  | init : Reachable TaskStorage.empty
  | step : ∀ s op, Reachable s → Reachable (applyOp s op)

/-- A character list with no leading and no trailing whitespace. -/
def noWsEnds (l : List Char) : Prop :=
  (∀ c, l.head? = some c → c.isWhitespace = false) ∧
  (∀ c, l.getLast? = some c → c.isWhitespace = false)

/-- Well-formed stored title: non-empty, at most 100 characters, no
surrounding whitespace. -/
def wfTitle (s : String) : Prop :=
  s.data ≠ [] ∧ s.data.length ≤ 100 ∧ noWsEnds s.data

/-- Well-formed stored description: at most 500 characters, no surrounding
whitespace. -/
def wfDescr (s : String) : Prop :=
  s.data.length ≤ 500 ∧ noWsEnds s.data

/-- Every stored task has a well-formed title and description. -/
def WFStore (s : TaskStorage) : Prop :=
  ∀ t ∈ s.tasks, wfTitle t.title ∧ wfDescr t.description

/-! ### Properties of the strip model -/

theorem stripChars_getLast (l : List Char) (c : Char)
    (h : (stripChars l).getLast? = some c) : c.isWhitespace = false := by
  unfold stripChars at h
  rw [List.getLast?_reverse] at h
  have := List.head?_dropWhile_not Char.isWhitespace (l.dropWhile Char.isWhitespace).reverse
  rw [h] at this
  exact this

theorem stripChars_head (l : List Char) (c : Char)
    (h : (stripChars l).head? = some c) : c.isWhitespace = false := by
  unfold stripChars at h
  set m := l.dropWhile Char.isWhitespace with hm
  obtain ⟨pre, hpre⟩ := List.dropWhile_suffix (l := m.reverse) (p := Char.isWhitespace)
  have hrev : m = (m.reverse.dropWhile Char.isWhitespace).reverse ++ pre.reverse := by
    have := congrArg List.reverse hpre
    simpa [List.reverse_append] using this.symm
  have hhm : m.head? = some c := by
    rw [hrev, List.head?_append, h]
    rfl
  have := List.head?_dropWhile_not Char.isWhitespace l
  rw [← hm, hhm] at this
  exact this

theorem noWsEnds_stripChars (l : List Char) : noWsEnds (stripChars l) :=
  ⟨fun c h => stripChars_head l c h, fun c h => stripChars_getLast l c h⟩

theorem pyStrip_data (s : String) : (pyStrip s).data = stripChars s.data := rfl

/-! ### Properties of the list helpers -/

theorem findTask_id (ts : List Task) (i : Int) (t : Task)
    (h : findTask ts i = some t) : t.id = i := by
  induction ts with
  | nil => simp [findTask] at h
  | cons u rest ih =>
    by_cases hu : u.id = i
    · simp only [findTask, if_pos hu, Option.some.injEq] at h
      rw [← h]
      exact hu
    · simp only [findTask, if_neg hu] at h
      exact ih h

theorem findTask_mem (ts : List Task) (i : Int) (t : Task)
    (h : findTask ts i = some t) : t ∈ ts := by
  induction ts with
  | nil => simp [findTask] at h
  | cons u rest ih =>
    by_cases hu : u.id = i
    · simp [findTask, hu] at h
      simp [h]
    · simp [findTask, hu] at h
      exact List.mem_cons_of_mem u (ih h)

theorem findTask_append (pre post : List Task) (t : Task) (i : Int)
    (hpre : ∀ u ∈ pre, u.id ≠ i) (hid : t.id = i) :
    findTask (pre ++ t :: post) i = some t := by
  induction pre with
  | nil => simp [findTask, hid]
  | cons u rest ih =>
    have hu : u.id ≠ i := hpre u (by simp)
    simp only [List.cons_append, findTask, if_neg hu]
    exact ih fun v hv => hpre v (List.mem_cons_of_mem u hv)

theorem setFirst_append (pre post : List Task) (t t' : Task) (i : Int)
    (hpre : ∀ u ∈ pre, u.id ≠ i) (hid : t.id = i) :
    setFirst (pre ++ t :: post) i t' = pre ++ t' :: post := by
  induction pre with
  | nil => simp [setFirst, hid]
  | cons u rest ih =>
    have hu : u.id ≠ i := hpre u (by simp)
    simp only [List.cons_append, setFirst, if_neg hu, List.cons.injEq, true_and]
    exact ih fun v hv => hpre v (List.mem_cons_of_mem u hv)

theorem findTask_setFirst (ts : List Task) (i : Int) (t t' : Task)
    (h : findTask ts i = some t) (hid : t'.id = i) :
    findTask (setFirst ts i t') i = some t' := by
  induction ts with
  | nil => simp [findTask] at h
  | cons u rest ih =>
    by_cases hu : u.id = i
    · simp [setFirst, hu, findTask, hid]
    · simp only [setFirst, if_neg hu, findTask]
      simp only [findTask, if_neg hu] at h
      exact ih h

theorem setFirst_setFirst (ts : List Task) (i : Int) (t1 t2 : Task)
    (h1 : t1.id = i) : setFirst (setFirst ts i t1) i t2 = setFirst ts i t2 := by
  induction ts with
  | nil => simp [setFirst]
  | cons u rest ih =>
    by_cases hu : u.id = i
    · simp [setFirst, hu, h1]
    · simp [setFirst, hu, ih]

theorem setFirst_self (ts : List Task) (i : Int) (t : Task)
    (h : findTask ts i = some t) : setFirst ts i t = ts := by
  induction ts with
  | nil => simp [setFirst]
  | cons u rest ih =>
    by_cases hu : u.id = i
    · simp only [findTask, if_pos hu, Option.some.injEq] at h
      subst h
      simp [setFirst, hu]
    · simp only [findTask, if_neg hu] at h
      simp [setFirst, hu, ih h]

theorem setFirst_mem (ts : List Task) (i : Int) (t' x : Task)
    (h : x ∈ setFirst ts i t') : x ∈ ts ∨ x = t' := by
  induction ts with
  | nil => simp [setFirst] at h
  | cons u rest ih =>
    by_cases hu : u.id = i
    · simp only [setFirst, if_pos hu, List.mem_cons] at h
      rcases h with h | h
      · exact Or.inr h
      · exact Or.inl (List.mem_cons_of_mem u h)
    · simp only [setFirst, if_neg hu, List.mem_cons] at h
      rcases h with h | h
      · exact Or.inl (by simp [h])
      · rcases ih h with h2 | h2
        · exact Or.inl (List.mem_cons_of_mem u h2)
        · exact Or.inr h2

theorem removeFirst_mem (ts : List Task) (i : Int) (r : Task) (rest : List Task)
    (h : removeFirst ts i = some (r, rest)) : ∀ x ∈ rest, x ∈ ts := by
  induction ts generalizing rest with
  | nil => simp [removeFirst] at h
  | cons u tl ih =>
    by_cases hu : u.id = i
    · simp only [removeFirst, if_pos hu, Option.some.injEq, Prod.mk.injEq] at h
      intro x hx
      exact List.mem_cons_of_mem u (h.2 ▸ hx)
    · simp only [removeFirst, if_neg hu] at h
      cases hrem : removeFirst tl i with
      | none => rw [hrem] at h; simp at h
      | some p =>
        obtain ⟨r0, rest0⟩ := p
        rw [hrem] at h
        simp only [Option.some.injEq, Prod.mk.injEq] at h
        intro x hx
        rw [← h.2] at hx
        rcases List.mem_cons.mp hx with h2 | h2
        · simp [h2]
        · exact List.mem_cons_of_mem u (ih rest0 (h.1 ▸ hrem) x h2)

/-! ### Claims about the add operation -/

/-- C1: for every valid (title, description) input, `AddTaskAgent.execute`
succeeds with a task whose id is the counter value held immediately before
the call, and afterwards the counter is exactly one greater. -/
theorem add_assigns_counter (s : TaskStorage) (title description : String)
    (hval : AddTaskAgent.validate_input title description = none) :
    (∃ t, (AddTaskAgent.execute s title description).2 = .ok t ∧
      t.id = s.next_id) ∧
    (AddTaskAgent.execute s title description).1.next_id = s.next_id + 1 := by
  unfold AddTaskAgent.execute
  rw [hval]
  exact ⟨⟨_, rfl, rfl⟩, rfl⟩

/-- Witness for C1 at a concrete valid input. -/
theorem add_assigns_counter_witness :
    (∃ t, (AddTaskAgent.execute TaskStorage.empty "hello" "x").2 = .ok t ∧
      t.id = TaskStorage.empty.next_id) ∧
    (AddTaskAgent.execute TaskStorage.empty "hello" "x").1.next_id =
      TaskStorage.empty.next_id + 1 :=
  add_assigns_counter TaskStorage.empty "hello" "x" (by decide)

/-- C2: whenever one of add, delete, update, toggle-complete reports
failure, the storage (task list and counter) after the call equals the
storage before it; in particular add on a whitespace-only title fails and
leaves the storage unchanged. -/
theorem failed_ops_preserve_state (s : TaskStorage) (title description : String)
    (task_id : Int) (new_title new_description : Option String)
    (mark_as : Option Bool) :
    ((AddTaskAgent.execute s title description).2.isOk = false →
      (AddTaskAgent.execute s title description).1 = s) ∧
    ((DeleteTaskAgent.execute s task_id).2.isOk = false →
      (DeleteTaskAgent.execute s task_id).1 = s) ∧
    ((UpdateTaskAgent.execute s task_id new_title new_description).2.isOk = false →
      (UpdateTaskAgent.execute s task_id new_title new_description).1 = s) ∧
    ((MarkCompleteAgent.execute s task_id mark_as).2.isOk = false →
      (MarkCompleteAgent.execute s task_id mark_as).1 = s) ∧
    (pyStrip title = "" →
      (AddTaskAgent.execute s title description).1 = s ∧
      (AddTaskAgent.execute s title description).2.isOk = false) := by
  refine ⟨?_, ?_, ?_, ?_, ?_⟩
  · unfold AddTaskAgent.execute
    cases hval : AddTaskAgent.validate_input title description <;>
      simp [AgentResult.isOk]
  · unfold DeleteTaskAgent.execute
    cases hval : DeleteTaskAgent.validate_input task_id
    · unfold TaskStorage.remove
      cases hrem : removeFirst s.tasks task_id with
      | none => simp [AgentResult.isOk]
      | some p => simp [AgentResult.isOk]
    · simp [AgentResult.isOk]
  · unfold UpdateTaskAgent.execute
    cases hval : UpdateTaskAgent.validate_input task_id new_title new_description
    · cases hget : TaskStorage.get s task_id <;> simp [AgentResult.isOk]
    · simp [AgentResult.isOk]
  · unfold MarkCompleteAgent.execute
    cases hval : MarkCompleteAgent.validate_input task_id
    · cases hget : TaskStorage.get s task_id <;> simp [AgentResult.isOk]
    · simp [AgentResult.isOk]
  · intro hblank
    unfold AddTaskAgent.execute
    rw [show AddTaskAgent.validate_input title description =
      some "Title cannot be empty" by
        unfold AddTaskAgent.validate_input
        rw [if_pos (Or.inr hblank)]]
    exact ⟨rfl, rfl⟩

/-- Witness for C2: the hypotheses of each conjunct discharged at concrete
failing calls on a one-task store. -/
theorem failed_ops_preserve_state_witness :
    ((AddTaskAgent.execute { tasks := [], next_id := 1 } " " "d").1 =
      { tasks := [], next_id := 1 }) ∧
    ((DeleteTaskAgent.execute { tasks := [], next_id := 3 } 2).1 =
      { tasks := [], next_id := 3 }) ∧
    ((UpdateTaskAgent.execute { tasks := [], next_id := 3 } 2 (some "t") none).1 =
      { tasks := [], next_id := 3 }) ∧
    ((MarkCompleteAgent.execute { tasks := [], next_id := 3 } 2 none).1 =
      { tasks := [], next_id := 3 }) ∧
    ((AddTaskAgent.execute { tasks := [], next_id := 1 } " " "d").2.isOk = false) := by
  have h1 := failed_ops_preserve_state { tasks := [], next_id := 1 } " " "d" 2
    (some "t") none none
  have h2 := failed_ops_preserve_state { tasks := [], next_id := 3 } " " "d" 2
    (some "t") none none
  exact ⟨h1.1 (by decide), h2.2.1 (by decide), h2.2.2.1 (by decide),
    h2.2.2.2.1 (by decide), (h1.2.2.2.2 (by decide)).2⟩

/-! ### Claims about the update operations -/

theorem updateLoop_blank (ts : List Task) (i : Int) (wt : String) (t : Task)
    (hblank : pyStrip wt = "") (h : findTask ts i = some t) :
    updateLoop ts i (some wt) none = (ts, some t) := by
  induction ts with
  | nil => simp [findTask] at h
  | cons u rest ih =>
    by_cases hu : u.id = i
    · simp only [findTask, if_pos hu, Option.some.injEq] at h
      subst h
      simp [updateLoop, hu, applyMainUpdate, hblank]
    · simp only [findTask, if_neg hu] at h
      simp [updateLoop, hu, ih h]

/-- C4: on an existing task, a whitespace-only new title makes the two
update implementations disagree: `main.py`'s `update_task` succeeds and
keeps the old title, while `UpdateTaskAgent.execute` fails with
"Title cannot be empty" and mutates nothing. -/
theorem update_blank_title_divergence (s : TaskStorage) (task_id : Int)
    (wt : String) (t : Task) (hpos : 1 ≤ task_id) (hblank : pyStrip wt = "")
    (hget : TaskStorage.get s task_id = some t) :
    update_task s.tasks task_id (some wt) none = (s.tasks, some t) ∧
    UpdateTaskAgent.execute s task_id (some wt) none =
      (s, .err "Title cannot be empty") := by
  constructor
  · unfold update_task
    rw [if_neg (by simp)]
    exact updateLoop_blank s.tasks task_id wt t hblank hget
  · unfold UpdateTaskAgent.execute
    rw [show UpdateTaskAgent.validate_input task_id (some wt) none =
      some "Title cannot be empty" by
        unfold UpdateTaskAgent.validate_input
        rw [if_neg (by omega), if_neg (by simp),
          if_pos (by simp [givenBlank, hblank])]]

/-- Witness for C4 at a concrete one-task store and the title `"   "`. -/
theorem update_blank_title_divergence_witness :
    update_task [⟨1, "Old", "x", false⟩] 1 (some "   ") none =
      ([⟨1, "Old", "x", false⟩], some ⟨1, "Old", "x", false⟩) ∧
    UpdateTaskAgent.execute ⟨[⟨1, "Old", "x", false⟩], 2⟩ 1 (some "   ") none =
      (⟨[⟨1, "Old", "x", false⟩], 2⟩, .err "Title cannot be empty") :=
  update_blank_title_divergence ⟨[⟨1, "Old", "x", false⟩], 2⟩
    1 "   " ⟨1, "Old", "x", false⟩ (by decide) (by decide) (by decide)

/-- C5: a successful agent update changes exactly the provided fields of the
first task with the given id — a provided field is stored trimmed, an
omitted field, the task's id and completed flag, every other task and the
counter are all unchanged. -/
theorem update_frame (s : TaskStorage) (task_id : Int)
    (nt nd : Option String) (pre post : List Task) (t : Task)
    (hval : UpdateTaskAgent.validate_input task_id nt nd = none)
    (hsplit : s.tasks = pre ++ t :: post)
    (hpre : ∀ u ∈ pre, u.id ≠ task_id)
    (hid : t.id = task_id) :
    UpdateTaskAgent.execute s task_id nt nd =
      ({ s with tasks := pre ++ updateFields t nt nd :: post },
        .ok (updateFields t nt nd)) ∧
    (updateFields t nt nd).id = t.id ∧
    (updateFields t nt nd).completed = t.completed ∧
    (updateFields t nt nd).title = pickField nt t.title ∧
    (updateFields t nt nd).description = pickField nd t.description ∧
    (UpdateTaskAgent.execute s task_id nt nd).1.next_id = s.next_id := by
  have hget : TaskStorage.get s task_id = some t := by
    unfold TaskStorage.get
    rw [hsplit]
    exact findTask_append pre post t task_id hpre hid
  have hmain : UpdateTaskAgent.execute s task_id nt nd =
      ({ s with tasks := pre ++ updateFields t nt nd :: post },
        .ok (updateFields t nt nd)) := by
    simp only [UpdateTaskAgent.execute, hval, hget]
    rw [hsplit, setFirst_append pre post t _ task_id hpre hid]
  refine ⟨hmain, rfl, rfl, rfl, rfl, ?_⟩
  rw [hmain]

/-- Witness for C5: updating the title of the second of two tasks. -/
theorem update_frame_witness :
    UpdateTaskAgent.execute ⟨[⟨1, "A", "d", false⟩, ⟨2, "B", "", true⟩], 3⟩
      2 (some " New ") none =
      (⟨[⟨1, "A", "d", false⟩] ++
          updateFields ⟨2, "B", "", true⟩ (some " New ") none :: [], 3⟩,
        .ok (updateFields ⟨2, "B", "", true⟩ (some " New ") none)) ∧
    (updateFields ⟨2, "B", "", true⟩ (some " New ") none).id = (2 : Int) ∧
    (updateFields ⟨2, "B", "", true⟩ (some " New ") none).completed = true ∧
    (updateFields ⟨2, "B", "", true⟩ (some " New ") none).title =
      pickField (some " New ") "B" ∧
    (updateFields ⟨2, "B", "", true⟩ (some " New ") none).description =
      pickField none "" ∧
    (UpdateTaskAgent.execute ⟨[⟨1, "A", "d", false⟩, ⟨2, "B", "", true⟩], 3⟩
      2 (some " New ") none).1.next_id = 3 :=
  update_frame ⟨[⟨1, "A", "d", false⟩, ⟨2, "B", "", true⟩], 3⟩
    2 (some " New ") none [⟨1, "A", "d", false⟩] [] ⟨2, "B", "", true⟩
    (by decide) rfl (by decide) rfl

/-! ### Claim about the toggle operation -/

/-- C7: calling the toggle agent twice with no explicit `mark_as` on an
existing task succeeds both times and restores the store — in particular the
task's completed flag — to its value before the first call. -/
theorem toggle_twice_involution (s : TaskStorage) (task_id : Int) (t : Task)
    (hpos : 1 ≤ task_id) (hget : TaskStorage.get s task_id = some t) :
    (MarkCompleteAgent.execute s task_id none).2.isOk = true ∧
    MarkCompleteAgent.execute (MarkCompleteAgent.execute s task_id none).1
      task_id none = (s, .ok t) := by
  obtain ⟨tid, ttl, tds, tcp⟩ := t
  have hvalid : MarkCompleteAgent.validate_input task_id = none := by
    unfold MarkCompleteAgent.validate_input
    rw [if_neg (by omega)]
  have hid : tid = task_id := findTask_id s.tasks task_id _ hget
  have h1 : MarkCompleteAgent.execute s task_id none =
      ({ s with tasks := setFirst s.tasks task_id ⟨tid, ttl, tds, !tcp⟩ },
       .ok ⟨tid, ttl, tds, !tcp⟩) := by
    unfold MarkCompleteAgent.execute
    rw [hvalid, hget]
  have hget1 : TaskStorage.get
      { s with tasks := setFirst s.tasks task_id ⟨tid, ttl, tds, !tcp⟩ }
      task_id = some ⟨tid, ttl, tds, !tcp⟩ :=
    findTask_setFirst s.tasks task_id _ _ hget hid
  constructor
  · rw [h1]
    rfl
  · rw [h1]
    unfold MarkCompleteAgent.execute
    rw [hvalid, hget1]
    simp only [Bool.not_not]
    rw [setFirst_setFirst s.tasks task_id _ _ hid,
      setFirst_self s.tasks task_id _ hget]

/-- Witness for C7 on a concrete store whose single task is incomplete. -/
theorem toggle_twice_involution_witness :
    (MarkCompleteAgent.execute ⟨[⟨1, "A", "", false⟩], 2⟩ 1 none).2.isOk = true ∧
    MarkCompleteAgent.execute
      (MarkCompleteAgent.execute ⟨[⟨1, "A", "", false⟩], 2⟩ 1 none).1 1 none =
      (⟨[⟨1, "A", "", false⟩], 2⟩, .ok ⟨1, "A", "", false⟩) :=
  toggle_twice_involution ⟨[⟨1, "A", "", false⟩], 2⟩
    1 ⟨1, "A", "", false⟩ (by decide) (by decide)

/-! ### Claims about the list operation -/

/-- C6: listing always succeeds; filter "complete" yields exactly the
completed tasks in insertion order, filter "incomplete" exactly the
non-completed ones in insertion order, and any other filter (or none)
yields all tasks. -/
theorem list_execute_spec :
    (∀ s filter_status, (ListTaskAgent.execute s filter_status).1 = true) ∧
    (∀ s t, t ∈ (ListTaskAgent.execute s (some "complete")).2 ↔
      t ∈ s.tasks ∧ t.completed = true) ∧
    (∀ s, ((ListTaskAgent.execute s (some "complete")).2).Sublist s.tasks) ∧
    (∀ s t, t ∈ (ListTaskAgent.execute s (some "incomplete")).2 ↔
      t ∈ s.tasks ∧ t.completed = false) ∧
    (∀ s, ((ListTaskAgent.execute s (some "incomplete")).2).Sublist s.tasks) ∧
    (∀ s filter_status, filter_status ≠ some "complete" →
      filter_status ≠ some "incomplete" →
      (ListTaskAgent.execute s filter_status).2 = s.tasks) := by
  refine ⟨fun s f => rfl, ?_, ?_, ?_, ?_, ?_⟩
  · intro s t
    simp [ListTaskAgent.execute, TaskStorage.get_all, List.mem_filter]
  · intro s
    have h : (ListTaskAgent.execute s (some "complete")).2 =
        s.tasks.filter (fun t => t.completed) := by
      simp [ListTaskAgent.execute, TaskStorage.get_all]
    rw [h]
    exact List.filter_sublist s.tasks
  · intro s t
    simp [ListTaskAgent.execute, TaskStorage.get_all, List.mem_filter]
  · intro s
    have h : (ListTaskAgent.execute s (some "incomplete")).2 =
        s.tasks.filter (fun t => !t.completed) := by
      simp [ListTaskAgent.execute, TaskStorage.get_all]
    rw [h]
    exact List.filter_sublist s.tasks
  · intro s f h1 h2
    simp [ListTaskAgent.execute, TaskStorage.get_all, h1, h2]

/-- Witness for C6: the inner implications discharged on a two-task store
with an unrecognized filter value. -/
theorem list_execute_spec_witness :
    (ListTaskAgent.execute ⟨[⟨1, "A", "", true⟩, ⟨2, "B", "", false⟩], 3⟩
      (some "bogus")).1 = true ∧
    (ListTaskAgent.execute ⟨[⟨1, "A", "", true⟩, ⟨2, "B", "", false⟩], 3⟩
      (some "bogus")).2 = [⟨1, "A", "", true⟩, ⟨2, "B", "", false⟩] :=
  ⟨list_execute_spec.1 ⟨[⟨1, "A", "", true⟩, ⟨2, "B", "", false⟩], 3⟩ (some "bogus"),
   list_execute_spec.2.2.2.2.2 ⟨[⟨1, "A", "", true⟩, ⟨2, "B", "", false⟩], 3⟩
     (some "bogus") (by decide) (by decide)⟩

theorem countP_completed_split (ts : List Task) :
    ts.countP (fun t => t.completed) + ts.countP (fun t => !t.completed) =
      ts.length := by
  induction ts with
  | nil => rfl
  | cons u rest ih =>
    cases h : u.completed <;> simp [List.countP_cons, h] <;> omega

/-- C8: the task summary counts the stored tasks, the completed ones and the
non-completed ones, so complete + incomplete = total; after adding three
tasks and completing one the summary is `{total := 3, complete := 1,
incomplete := 2}`. -/
theorem summary_spec :
    (∀ s, (ListTaskAgent.get_task_summary s).total = s.tasks.length ∧
      (ListTaskAgent.get_task_summary s).complete =
        s.tasks.countP (fun t => t.completed) ∧
      (ListTaskAgent.get_task_summary s).incomplete =
        s.tasks.countP (fun t => !t.completed) ∧
      (ListTaskAgent.get_task_summary s).complete +
        (ListTaskAgent.get_task_summary s).incomplete =
        (ListTaskAgent.get_task_summary s).total) ∧
    ListTaskAgent.get_task_summary
      (MarkCompleteAgent.execute
        (AddTaskAgent.execute
          (AddTaskAgent.execute
            (AddTaskAgent.execute TaskStorage.empty "A" "").1 "B" "").1 "C" "").1
        1 none).1 = ⟨3, 1, 2⟩ :=
  ⟨fun s => ⟨rfl, rfl, rfl, countP_completed_split s.tasks⟩, by decide⟩

/-! ### Claims about identifier assignment over operation sequences -/

theorem applyOp_next_id_mono (s : TaskStorage) (op : Op) :
    s.next_id ≤ (applyOpAssigned s op).1.next_id := by
  cases op with
  | addOp title description =>
    cases hval : AddTaskAgent.validate_input title description with
    | some msg => simp [applyOpAssigned, AddTaskAgent.execute, hval]
    | none =>
      simp only [applyOpAssigned, AddTaskAgent.execute, hval,
        TaskStorage.get_next_id, TaskStorage.add]
      omega
  | deleteOp j =>
    cases hval : DeleteTaskAgent.validate_input j with
    | some msg => simp [applyOpAssigned, DeleteTaskAgent.execute, hval]
    | none =>
      cases hrem : removeFirst s.tasks j with
      | none =>
        simp [applyOpAssigned, DeleteTaskAgent.execute, hval,
          TaskStorage.remove, hrem]
      | some p =>
        obtain ⟨r, rest⟩ := p
        simp [applyOpAssigned, DeleteTaskAgent.execute, hval,
          TaskStorage.remove, hrem]
  | updateOp j nt nd =>
    cases hval : UpdateTaskAgent.validate_input j nt nd with
    | some msg => simp [applyOpAssigned, UpdateTaskAgent.execute, hval]
    | none =>
      cases hget : TaskStorage.get s j with
      | none => simp [applyOpAssigned, UpdateTaskAgent.execute, hval, hget]
      | some t0 => simp [applyOpAssigned, UpdateTaskAgent.execute, hval, hget]
  | toggleOp j mb =>
    cases hval : MarkCompleteAgent.validate_input j with
    | some msg => simp [applyOpAssigned, MarkCompleteAgent.execute, hval]
    | none =>
      cases hget : TaskStorage.get s j with
      | none => simp [applyOpAssigned, MarkCompleteAgent.execute, hval, hget]
      | some t0 => simp [applyOpAssigned, MarkCompleteAgent.execute, hval, hget]
  | listOp f => simp [applyOpAssigned]

theorem applyOp_assigned_eq (s : TaskStorage) (op : Op) (s' : TaskStorage)
    (i : Int) (h : applyOpAssigned s op = (s', some i)) :
    i = s.next_id ∧ s'.next_id = s.next_id + 1 := by
  cases op with
  | addOp title description =>
    simp only [applyOpAssigned] at h
    cases hex : AddTaskAgent.execute s title description with
    | mk s2 r =>
      rw [hex] at h
      cases r with
      | err m => simp at h
      | ok task =>
        simp only [Prod.mk.injEq, Option.some.injEq] at h
        unfold AddTaskAgent.execute at hex
        cases hval : AddTaskAgent.validate_input title description with
        | some msg =>
          rw [hval] at hex
          simp at hex
        | none =>
          rw [hval] at hex
          simp only [TaskStorage.get_next_id, TaskStorage.add, Prod.mk.injEq,
            AgentResult.ok.injEq] at hex
          obtain ⟨hs2, htask⟩ := hex
          obtain ⟨hs', hi⟩ := h
          constructor
          · rw [← hi, ← htask]
          · rw [← hs', ← hs2]
  | deleteOp j => simp [applyOpAssigned] at h
  | updateOp j nt nd => simp [applyOpAssigned] at h
  | toggleOp j mb => simp [applyOpAssigned] at h
  | listOp f => simp [applyOpAssigned] at h

theorem traceAssigned_spec (ops : List Op) : ∀ s : TaskStorage,
    (∀ i ∈ traceAssigned s ops, s.next_id ≤ i) ∧
    (traceAssigned s ops).Pairwise (fun a b => a < b) := by
  induction ops with
  | nil =>
    intro s
    simp [traceAssigned]
  | cons op rest ih =>
    intro s
    cases hop : applyOpAssigned s op with
    | mk s1 assigned =>
      cases assigned with
      | none =>
        have htr : traceAssigned s (op :: rest) = traceAssigned s1 rest := by
          rw [traceAssigned, hop]
        rw [htr]
        have hmono : s.next_id ≤ s1.next_id := by
          have hm := applyOp_next_id_mono s op
          rw [hop] at hm
          exact hm
        obtain ⟨ih1, ih2⟩ := ih s1
        exact ⟨fun i hi => le_trans hmono (ih1 i hi), ih2⟩
      | some a =>
        have htr : traceAssigned s (op :: rest) = a :: traceAssigned s1 rest := by
          rw [traceAssigned, hop]
        rw [htr]
        obtain ⟨ha, hs1⟩ := applyOp_assigned_eq s op s1 a hop
        obtain ⟨ih1, ih2⟩ := ih s1
        constructor
        · intro i hi
          rcases List.mem_cons.mp hi with h | h
          · omega
          · have hb := ih1 i h
            omega
        · refine List.Pairwise.cons ?_ ih2
          intro b hb
          have hbb := ih1 b hb
          omega

/-- C3: over any operation sequence from a fresh store the ids assigned by
successful adds are strictly increasing (never reused, even after deletes);
concretely, after add("A") returns id 1 and delete(1) succeeds, get(1) is
not-found, count is 0, and the next add returns id 2. -/
theorem ids_never_reused :
    (∀ ops : List Op,
      (traceAssigned TaskStorage.empty ops).Pairwise (fun a b => a < b)) ∧
    (AddTaskAgent.execute TaskStorage.empty "A" "").2 = .ok ⟨1, "A", "", false⟩ ∧
    (DeleteTaskAgent.execute
      (AddTaskAgent.execute TaskStorage.empty "A" "").1 1).2 =
      .ok ⟨1, "A", "", false⟩ ∧
    TaskStorage.get
      (DeleteTaskAgent.execute
        (AddTaskAgent.execute TaskStorage.empty "A" "").1 1).1 1 = none ∧
    TaskStorage.count
      (DeleteTaskAgent.execute
        (AddTaskAgent.execute TaskStorage.empty "A" "").1 1).1 = 0 ∧
    (AddTaskAgent.execute
      (DeleteTaskAgent.execute
        (AddTaskAgent.execute TaskStorage.empty "A" "").1 1).1 "B" "").2 =
      .ok ⟨2, "B", "", false⟩ :=
  ⟨fun ops => (traceAssigned_spec ops TaskStorage.empty).2,
   by decide, by decide, by decide, by decide, by decide⟩

/-! ### Claims about well-formedness of stored tasks -/

theorem wf_add_valid (title description : String)
    (hval : AddTaskAgent.validate_input title description = none) :
    wfTitle (pyStrip title) ∧ wfDescr (pyStrip description) := by
  unfold AddTaskAgent.validate_input at hval
  split_ifs at hval with h1 h2 h3
  push_neg at h1
  have hT : (pyStrip title).data ≠ [] := by
    intro hd
    apply h1.2
    apply String.ext
    rw [hd]
  have hlen : (pyStrip title).data.length ≤ 100 := by
    have hl : (pyStrip title).length = (pyStrip title).data.length := rfl
    omega
  have hdlen : (pyStrip description).data.length ≤ 500 := by
    have hl : (pyStrip description).length = (pyStrip description).data.length := rfl
    omega
  refine ⟨⟨hT, hlen, ?_⟩, hdlen, ?_⟩
  · rw [pyStrip_data]
    exact noWsEnds_stripChars title.data
  · rw [pyStrip_data]
    exact noWsEnds_stripChars description.data

theorem wf_update_valid (task_id : Int) (nt nd : Option String)
    (hval : UpdateTaskAgent.validate_input task_id nt nd = none) :
    (∀ x, nt = some x → wfTitle (pyStrip x)) ∧
    (∀ x, nd = some x → wfDescr (pyStrip x)) := by
  unfold UpdateTaskAgent.validate_input at hval
  split_ifs at hval with h1 h2 h3 h4 h5
  constructor
  · intro x hx
    rw [hx] at h3 h4
    simp only [givenBlank, decide_eq_true_eq] at h3
    simp only [givenOverTitle, decide_eq_true_eq] at h4
    have hT : (pyStrip x).data ≠ [] := by
      intro hd
      apply h3
      apply String.ext
      rw [hd]
    have hlen : (pyStrip x).data.length ≤ 100 := by
      have hl : (pyStrip x).length = (pyStrip x).data.length := rfl
      omega
    refine ⟨hT, hlen, ?_⟩
    rw [pyStrip_data]
    exact noWsEnds_stripChars x.data
  · intro x hx
    rw [hx] at h5
    simp only [givenOverDescr, decide_eq_true_eq] at h5
    have hlen : (pyStrip x).data.length ≤ 500 := by
      have hl : (pyStrip x).length = (pyStrip x).data.length := rfl
      omega
    refine ⟨hlen, ?_⟩
    rw [pyStrip_data]
    exact noWsEnds_stripChars x.data

theorem wf_applyOp (s : TaskStorage) (op : Op) (hwf : WFStore s) :
    WFStore (applyOp s op) := by
  cases op with
  | addOp title description =>
    cases hval : AddTaskAgent.validate_input title description with
    | some msg =>
      simp only [applyOp, applyOpAssigned, AddTaskAgent.execute, hval]
      exact hwf
    | none =>
      simp only [applyOp, applyOpAssigned, AddTaskAgent.execute, hval,
        TaskStorage.get_next_id, TaskStorage.add]
      intro t ht
      rcases List.mem_append.mp ht with h | h
      · exact hwf t h
      · rw [List.mem_singleton.mp h]
        obtain ⟨hT, hD⟩ := wf_add_valid title description hval
        exact ⟨hT, hD⟩
  | deleteOp j =>
    cases hval : DeleteTaskAgent.validate_input j with
    | some msg =>
      simp only [applyOp, applyOpAssigned, DeleteTaskAgent.execute, hval]
      exact hwf
    | none =>
      cases hrem : removeFirst s.tasks j with
      | none =>
        simp only [applyOp, applyOpAssigned, DeleteTaskAgent.execute, hval,
          TaskStorage.remove, hrem]
        exact hwf
      | some p =>
        obtain ⟨r, rest⟩ := p
        simp only [applyOp, applyOpAssigned, DeleteTaskAgent.execute, hval,
          TaskStorage.remove, hrem]
        intro t ht
        exact hwf t (removeFirst_mem s.tasks j r rest hrem t ht)
  | updateOp j nt nd =>
    cases hval : UpdateTaskAgent.validate_input j nt nd with
    | some msg =>
      simp only [applyOp, applyOpAssigned, UpdateTaskAgent.execute, hval]
      exact hwf
    | none =>
      cases hget : TaskStorage.get s j with
      | none =>
        simp only [applyOp, applyOpAssigned, UpdateTaskAgent.execute, hval, hget]
        exact hwf
      | some t0 =>
        simp only [applyOp, applyOpAssigned, UpdateTaskAgent.execute, hval, hget]
        intro t ht
        rcases setFirst_mem s.tasks j (updateFields t0 nt nd) t ht with h | h
        · exact hwf t h
        · have hwf0 := hwf t0 (findTask_mem s.tasks j t0 hget)
          obtain ⟨hUT, hUD⟩ := wf_update_valid j nt nd hval
          rw [h]
          constructor
          · show wfTitle (pickField nt t0.title)
            cases hnt : nt with
            | none => exact hwf0.1
            | some x => exact hUT x hnt
          · show wfDescr (pickField nd t0.description)
            cases hnd : nd with
            | none => exact hwf0.2
            | some x => exact hUD x hnd
  | toggleOp j mb =>
    cases hval : MarkCompleteAgent.validate_input j with
    | some msg =>
      simp only [applyOp, applyOpAssigned, MarkCompleteAgent.execute, hval]
      exact hwf
    | none =>
      cases hget : TaskStorage.get s j with
      | none =>
        simp only [applyOp, applyOpAssigned, MarkCompleteAgent.execute, hval, hget]
        exact hwf
      | some t0 =>
        simp only [applyOp, applyOpAssigned, MarkCompleteAgent.execute, hval, hget]
        intro t ht
        rcases setFirst_mem s.tasks j _ t ht with h | h
        · exact hwf t h
        · have hwf0 := hwf t0 (findTask_mem s.tasks j t0 hget)
          rw [h]
          exact hwf0
  | listOp f =>
    simp only [applyOp, applyOpAssigned]
    exact hwf

/-- C10: in every store state reachable from a fresh store through the five
agents, each stored task's title is non-empty, at most 100 characters and
free of surrounding whitespace, and each stored description is at most 500
characters and free of surrounding whitespace. -/
theorem reachable_wf (s : TaskStorage) (h : Reachable s) : WFStore s := by
  induction h with
  | init =>
    intro t ht
    simp [TaskStorage.empty] at ht
  | step s0 op h0 ih =>
    exact wf_applyOp s0 op ih

/-- Witness for C10 at the store reached by one successful add. -/
theorem reachable_wf_witness :
    WFStore (applyOp TaskStorage.empty (Op.addOp "hi" "note")) :=
  reachable_wf (applyOp TaskStorage.empty (Op.addOp "hi" "note"))
    (Reachable.step TaskStorage.empty (Op.addOp "hi" "note") Reachable.init)

end TodoApp
